import Mathlib

/-
  Verification of the SpaceShooter projectile/enemy simulation engine
  (src/SpaceShooter/SpaceShooter.ino) against its natural-language
  specification.

  The 8x8 grid of cell markers is embedded as a list of rows of Nat cell
  codes.  Indexing is Option-returning: an access outside the stored grid
  yields none, and a simulation step that performs such an access (which is
  undefined behaviour in the C program) returns none.  The per-tick loops of
  advanceBullet are embedded as folds over the explicit scan orders of the
  C code.  Timers (millis comparisons) are abstracted into a nondeterministic
  step relation; the random stream is an explicit oracle argument.
-/

namespace SpaceShooter

set_option maxRecDepth 40000

/-- Cell marker codes, from the constant block of the sketch. -/
def EMPTY : Nat := 0

def BULLET : Nat := 1

def ENEMY_BULLET : Nat := 2

def ENEMY_A : Nat := 3

def ENEMY_B : Nat := 4

def ENEMY_C : Nat := 5

def ENEMY_D : Nat := 6

def CURSOR : Nat := 7

/-- The grid: a list of rows, each a list of cell codes (8 x 8 in play). -/
abbrev Grid := List (List Nat)

/-- Option-returning read of grid cell (r, c): none when out of bounds. -/
def gget (g : Grid) (r c : Nat) : Option Nat :=
  g[r]?.bind fun row => row[c]?

/-- Option-returning write of grid cell (r, c): none when out of bounds
(an out-of-bounds write in the C program is undefined behaviour). -/
def gset (g : Grid) (r c v : Nat) : Option Grid :=
  match g[r]? with
  | none => none
  | some row =>
    match row[c]? with
    | none => none
    | some _ => some (g.set r (row.set c v))

/-- Total write used to build concrete test states: out of bounds is a no-op. -/
def gsetT (g : Grid) (r c v : Nat) : Grid :=
  match gset g r c v with
  | none => g
  | some g2 => g2

/-- Two consecutive writes, as the C branches that update a destination cell
and then the origin cell. -/
def setPair (g : Grid) (r1 c1 v1 r2 c2 v2 : Nat) : Option Grid :=
  match gset g r1 c1 v1 with
  | none => none
  | some g1 => gset g1 r2 c2 v2

/-- The grid right after initGame: all 64 cells EMPTY. -/
def emptyGrid : Grid := List.replicate 8 (List.replicate 8 EMPTY)

/-- Number of cells of the grid holding the marker v. -/
def countCell (g : Grid) (v : Nat) : Nat :=
  (g.map fun row => row.count v).sum

/-- Game state: the globals of the sketch that the engine reads and writes.
score is unsigned long and kills/enemies/wave are int in the source; their
values stay far below any overflow in the properties considered, so they are
carried as Nat.  baseEnemyShootDelay and enemyShootDelay are C int (16 bit on
the AVR target), carried as Int with explicit wrap-around where they are
updated.  losses counts executed gameover transitions (a ghost observer). -/
structure St where
  grid : Grid
  cursorX : Nat
  score : Nat
  kills : Nat
  enemies : Nat
  wave : Nat
  base : Int
  delay : Int
  losses : Nat
deriving DecidableEq

/-- initGame: clears the grid and counters and recenters the cursor.
baseEnemyShootDelay and enemyShootDelay are NOT reset by initGame. -/
def gameover (s : St) : St :=
  { grid := emptyGrid, cursorX := 4, score := 0, kills := 0, enemies := 0,
    wave := 0, base := s.base, delay := s.delay, losses := s.losses + 1 }

/-- The state after setup(): initGame from the initial global values. -/
def initState : St :=
  { grid := emptyGrid, cursorX := 4, score := 0, kills := 0, enemies := 0,
    wave := 0, base := 1000, delay := 1000, losses := 0 }

/-- WAVE_1 .. WAVE_10, the fixed 3 x 8 enemy layout templates. -/
def WAVE_1 : Grid :=
  [[ENEMY_C, ENEMY_C, ENEMY_C, ENEMY_C, ENEMY_C, ENEMY_C, ENEMY_C, ENEMY_C],
   [ENEMY_A, 0, 0, ENEMY_A, ENEMY_A, 0, 0, ENEMY_A],
   [ENEMY_C, ENEMY_A, ENEMY_A, ENEMY_C, ENEMY_C, ENEMY_A, ENEMY_A, ENEMY_C]]

def WAVE_2 : Grid :=
  [[ENEMY_A, 0, ENEMY_A, 0, ENEMY_A, 0, ENEMY_A, 0],
   [ENEMY_C, 0, ENEMY_C, 0, ENEMY_C, 0, ENEMY_C, 0],
   [ENEMY_A, 0, ENEMY_C, 0, ENEMY_C, 0, ENEMY_A, 0]]

def WAVE_3 : Grid :=
  [[ENEMY_C, ENEMY_A, ENEMY_C, ENEMY_A, ENEMY_C, ENEMY_A, ENEMY_C, ENEMY_A],
   [ENEMY_A, 0, ENEMY_A, 0, ENEMY_A, 0, ENEMY_A, 0],
   [ENEMY_B, ENEMY_B, ENEMY_B, ENEMY_B, ENEMY_B, ENEMY_B, ENEMY_B, ENEMY_B]]

def WAVE_4 : Grid :=
  [[ENEMY_B, ENEMY_C, ENEMY_B, 0, 0, ENEMY_B, ENEMY_C, ENEMY_B],
   [ENEMY_D, ENEMY_A, ENEMY_D, 0, 0, ENEMY_D, ENEMY_A, ENEMY_D],
   [ENEMY_A, ENEMY_B, ENEMY_A, 0, 0, ENEMY_A, ENEMY_B, ENEMY_A]]

def WAVE_5 : Grid :=
  [[ENEMY_C, ENEMY_A, ENEMY_C, 0, 0, ENEMY_C, ENEMY_A, ENEMY_C],
   [ENEMY_A, ENEMY_D, ENEMY_A, ENEMY_B, ENEMY_B, ENEMY_A, ENEMY_D, ENEMY_A],
   [0, 0, 0, 0, 0, 0, 0, 0]]

def WAVE_6 : Grid :=
  [[0, ENEMY_A, ENEMY_D, ENEMY_D, ENEMY_D, ENEMY_D, ENEMY_A, 0],
   [0, 0, ENEMY_A, ENEMY_D, ENEMY_D, ENEMY_A, 0, 0],
   [0, 0, 0, ENEMY_A, ENEMY_A, 0, 0, 0]]

def WAVE_7 : Grid :=
  [[ENEMY_A, ENEMY_B, ENEMY_A, ENEMY_B, ENEMY_B, ENEMY_A, ENEMY_B, ENEMY_A],
   [ENEMY_B, ENEMY_A, ENEMY_B, ENEMY_A, ENEMY_A, ENEMY_B, ENEMY_A, ENEMY_B],
   [ENEMY_A, ENEMY_B, ENEMY_A, ENEMY_B, ENEMY_B, ENEMY_A, ENEMY_B, ENEMY_A]]

def WAVE_8 : Grid :=
  [[ENEMY_C, 0, 0, 0, 0, 0, 0, ENEMY_C],
   [ENEMY_B, ENEMY_C, 0, 0, 0, 0, ENEMY_C, ENEMY_B],
   [ENEMY_B, ENEMY_B, ENEMY_C, 0, 0, ENEMY_C, ENEMY_B, ENEMY_B]]

def WAVE_9 : Grid :=
  [[ENEMY_D, ENEMY_A, ENEMY_D, ENEMY_A, ENEMY_D, ENEMY_A, ENEMY_D, ENEMY_A],
   [ENEMY_A, ENEMY_A, ENEMY_A, ENEMY_A, ENEMY_A, ENEMY_A, ENEMY_A, ENEMY_A],
   [0, 0, 0, 0, 0, 0, 0, 0]]

def WAVE_10 : Grid :=
  [[ENEMY_B, ENEMY_B, ENEMY_B, ENEMY_B, ENEMY_B, ENEMY_B, ENEMY_B, ENEMY_B],
   [ENEMY_A, ENEMY_A, ENEMY_A, ENEMY_A, ENEMY_A, ENEMY_A, ENEMY_A, ENEMY_A],
   [ENEMY_C, ENEMY_B, ENEMY_C, ENEMY_B, ENEMY_C, ENEMY_B, ENEMY_C, ENEMY_B]]

/-- The WAVES catalog, in order. -/
def catalog : List Grid :=
  [WAVE_1, WAVE_2, WAVE_3, WAVE_4, WAVE_5, WAVE_6, WAVE_7, WAVE_8, WAVE_9, WAVE_10]

/-- Scan order of advanceBullet pass 1: row 7 down to 0, columns 0..7. -/
def scan1 : List (Nat × Nat) :=
  (List.range 8).reverse.flatMap fun r => (List.range 8).map fun c => (r, c)

/-- Scan order of advanceBullet pass 2 and of enemyShoot: row 0 up to 7,
columns 0..7. -/
def scan2 : List (Nat × Nat) :=
  (List.range 8).flatMap fun r => (List.range 8).map fun c => (r, c)

/-- Scan order of the bottom-row cleanup of advanceBullet: row 7, cols 0..7. -/
def scanClean : List (Nat × Nat) :=
  (List.range 8).map fun c => (7, c)

/-- Run a fallible cell step over a scan order, threading the state; an
out-of-bounds access (undefined behaviour in C) aborts the whole run. -/
def runSteps (f : Nat × Nat → St → Option St) : List (Nat × Nat) → St → Option St
  | [], s => some s
  | p :: ps, s =>
    match f p s with
    | none => none
    | some s1 => runSteps f ps s1

/-- Run a total cell step over a scan order. -/
def runT (f : Nat × Nat → St → St) : List (Nat × Nat) → St → St
  | [], s => s
  | p :: ps, s => runT f ps (f p s)

/-- Body of pass 1 of advanceBullet at scan position p (a player bullet cell).
The C code first reads grid at row p.1 + 1 (for p.1 = 7 this is the
out-of-bounds read of row 8, hence none; the subsequent row == 7 destroy
statement of the source is unreachable before undefined behaviour).  Then:
destination EMPTY moves the bullet, an enemy is scored and downgraded or
destroyed with the kill counter incremented once, an enemy bullet gives
mutual annihilation with a 1 x wave score bonus, anything else blocks. -/
def step1 (p : Nat × Nat) (s : St) : Option St :=
  match gget s.grid p.1 p.2 with
  | none => none
  | some v =>
    if v = BULLET then
      if 0 < p.1 then
        match gget s.grid (p.1 + 1) p.2 with
        | none => none
        | some above =>
          if above = EMPTY then
            match setPair s.grid (p.1 + 1) p.2 BULLET p.1 p.2 EMPTY with
            | none => none
            | some g => some { s with grid := g }
          else if above = ENEMY_A then
            match setPair s.grid (p.1 + 1) p.2 EMPTY p.1 p.2 EMPTY with
            | none => none
            | some g =>
              some { s with grid := g, score := s.score + 10 * s.wave, kills := s.kills + 1 }
          else if above = ENEMY_B then
            match setPair s.grid (p.1 + 1) p.2 EMPTY p.1 p.2 EMPTY with
            | none => none
            | some g =>
              some { s with grid := g, score := s.score + 20 * s.wave, kills := s.kills + 1 }
          else if above = ENEMY_C then
            match setPair s.grid (p.1 + 1) p.2 ENEMY_B p.1 p.2 EMPTY with
            | none => none
            | some g =>
              some { s with grid := g, score := s.score + 50 * s.wave, kills := s.kills + 1 }
          else if above = ENEMY_D then
            match setPair s.grid (p.1 + 1) p.2 ENEMY_C p.1 p.2 EMPTY with
            | none => none
            | some g =>
              some { s with grid := g, score := s.score + 100 * s.wave, kills := s.kills + 1 }
          else if above = ENEMY_BULLET then
            match setPair s.grid (p.1 + 1) p.2 EMPTY p.1 p.2 EMPTY with
            | none => none
            | some g => some { s with grid := g, score := s.score + 1 * s.wave }
          else some s
      else
        -- row 0: remove the bullet (the "reached the top" branch of the C code)
        match gset s.grid p.1 p.2 EMPTY with
        | none => none
        | some g => some { s with grid := g }
    else some s

/-- Body of pass 2 of advanceBullet at scan position p (an enemy bullet cell).
The C code reads grid at row p.1 - 1 first; for p.1 = 0 that is the
out-of-bounds read of row -1, hence none.  Otherwise: an EMPTY destination
moves the bullet down; else, if the bullet is about to enter row 0 at the
cursor column, gameover runs (the state resets and the scan continues);
otherwise the bullet is cleared. -/
def step2 (p : Nat × Nat) (s : St) : Option St :=
  match gget s.grid p.1 p.2 with
  | none => none
  | some v =>
    if v = ENEMY_BULLET then
      match p.1 with
      | 0 => none
      | r + 1 =>
        match gget s.grid r p.2 with
        | none => none
        | some below =>
          if below = EMPTY then
            match setPair s.grid r p.2 ENEMY_BULLET (r + 1) p.2 EMPTY with
            | none => none
            | some g => some { s with grid := g }
          else if r = 0 ∧ p.2 = s.cursorX then some (gameover s)
          else
            match gset s.grid (r + 1) p.2 EMPTY with
            | none => none
            | some g => some { s with grid := g }
    else some s

/-- Bottom-row cleanup of advanceBullet: an enemy bullet resting in row 7 is
cleared. -/
def stepClean (p : Nat × Nat) (s : St) : Option St :=
  match gget s.grid p.1 p.2 with
  | none => none
  | some v =>
    if v = ENEMY_BULLET then
      match gset s.grid p.1 p.2 EMPTY with
      | none => none
      | some g => some { s with grid := g }
    else some s

/-- Pass 1 of advanceBullet: player bullets, scanned row 7 down to row 0. -/
def pass1 (s : St) : Option St := runSteps step1 scan1 s

/-- Pass 2 of advanceBullet: enemy bullets, scanned row 0 up to row 7. -/
def pass2 (s : St) : Option St := runSteps step2 scan2 s

/-- The bottom-row cleanup loop of advanceBullet. -/
def cleanupPass (s : St) : Option St := runSteps stepClean scanClean s

/-- One due bullet-advance tick: pass 1, then pass 2, then the cleanup. -/
def advanceTick (s : St) : Option St :=
  (pass1 s).bind fun s1 => (pass2 s1).bind cleanupPass

/-- n consecutive bullet-advance ticks. -/
def ticksN : Nat → St → Option St
  | 0, s => some s
  | n + 1, s => (advanceTick s).bind (ticksN n)

/-- hasEnemyBelow of the sketch: some cell in rows r-1 down to 3 of column c
is not EMPTY. -/
def hasEnemyBelow (g : Grid) (r c : Nat) : Bool :=
  (List.range' 3 (r - 3)).any fun row => decide (gget g row c ≠ some EMPTY)

/-- Body of enemyShoot at scan position p.  Each cell consumes one random
draw (random(100), modelled as draws (r * 8 + c) % 100) whether or not it
fires.  A TierB/C/D enemy with a favorable draw, no occupied cell below it in
rows r-1..3, and an EMPTY cell immediately below spawns an ENEMY_BULLET
there.  The scan does NOT stop after a fire. -/
def fireStep (draws : Nat → Nat) (p : Nat × Nat) (s : St) : St :=
  match gget s.grid p.1 p.2 with
  | none => s
  | some slot =>
    let fireChance := draws (p.1 * 8 + p.2) % 100
    if 50 ≤ fireChance ∧ (slot = ENEMY_B ∨ slot = ENEMY_C ∨ slot = ENEMY_D)
        ∧ hasEnemyBelow s.grid p.1 p.2 = false
        ∧ 0 < p.1 ∧ gget s.grid (p.1 - 1) p.2 = some EMPTY then
      match gset s.grid (p.1 - 1) p.2 ENEMY_BULLET with
      | none => s
      | some g => { s with grid := g }
    else s

/-- One due enemy-fire tick (the body of enemyShoot). -/
def enemyShoot (draws : Nat → Nat) (s : St) : St :=
  runT (fireStep draws) scan2 s

/-- Template scan order of setupTargets: rows 0..2, columns 0..7. -/
def scanTpl : List (Nat × Nat) :=
  (List.range 3).flatMap fun r => (List.range 8).map fun c => (r, c)

/-- Template cell read (templates are fixed 3 x 8 arrays, always in bounds). -/
def tplAt (tpl : Grid) (r c : Nat) : Nat := (gget tpl r c).getD EMPTY

/-- Body of setupTargets at template position p: a non-zero template cell adds
its weight (TierC 2, TierD 3, else 1) to the enemy total, and the template
value (zero included) is written to grid row 7 - p.1. -/
def stampStep (tpl : Grid) (p : Nat × Nat) (s : St) : St :=
  let v := tplAt tpl p.1 p.2
  let s1 :=
    if v ≠ 0 then
      { s with enemies := s.enemies +
          (if v = ENEMY_C then 2 else if v = ENEMY_D then 3 else 1) }
    else s
  match gset s1.grid (7 - p.1) p.2 v with
  | none => s1
  | some g => { s1 with grid := g }

/-- setupTargets for catalog index idx (random(NUM_WAVES) is the oracle). -/
def stampWave (idx : Nat) (s : St) : St :=
  runT (stampStep (catalog.getD idx (List.replicate 3 (List.replicate 8 EMPTY)))) scanTpl s

/-- Wrap-around of C int arithmetic on the 16-bit AVR target. -/
def wrap16 (x : Int) : Int := (x + 32768) % 65536 - 32768

/-- The wave-transition block of loop() (entered when kills >= enemies):
setupTargets, wave++, the wave cap check (gameover resets wave to 0 and the
block continues), then enemyShootDelay = baseEnemyShootDelay -= 50 * wave
with the 200 floor applied to enemyShootDelay only. -/
def waveTransition (idx : Nat) (s : St) : St :=
  let s1 := stampWave idx s
  let s2 := { s1 with wave := s1.wave + 1 }
  let s3 := if 99 < s2.wave then gameover s2 else s2
  let b := wrap16 (s3.base - 50 * (s3.wave : Int))
  let d := if b < 200 then (200 : Int) else b
  { s3 with base := b, delay := d }

/-- Cursor handling of loop(): joystick x below 512 - DEADZONE moves right
(cursorX + 1) under the cursorX < 7 guard, above 512 + DEADZONE moves left
under the 0 < cursorX guard. -/
def cursorMove (x : Nat) (s : St) : St :=
  if x < 512 - 100 ∧ s.cursorX < 7 then { s with cursorX := s.cursorX + 1 }
  else if 512 + 100 < x ∧ 0 < s.cursorX then { s with cursorX := s.cursorX - 1 }
  else s

/-- Shooting in loop(): when the reload timer is due and cell (1, cursorX) is
EMPTY, a player bullet is placed there. -/
def shootStep (s : St) : St :=
  if gget s.grid 1 s.cursorX = some EMPTY then
    match gset s.grid 1 s.cursorX BULLET with
    | none => s
    | some g => { s with grid := g }
  else s

/-- One scheduler-selected action of a loop() iteration.  Timer due-ness,
joystick values and the random stream are nondeterministic oracles; the
wave-transition action carries its kills >= enemies guard from the source. -/
inductive GStep : St → St → Prop
  | advance (s s1 : St) : advanceTick s = some s1 → GStep s s1
  | fire (s : St) (draws : Nat → Nat) : GStep s (enemyShoot draws s)
  | waveClear (s : St) (idx : Nat) : idx < 10 → s.enemies ≤ s.kills →
      GStep s (waveTransition idx s)
  | move (s : St) (x : Nat) : GStep s (cursorMove x s)
  | shoot (s : St) : GStep s (shootStep s)

/-- States reachable from a fresh game by loop() actions. -/
def Reachable (s : St) : Prop := Relation.ReflTransGen GStep initState s

/-- The 200 floor applied to the enemy-fire interval. -/
def clamp200 (x : Int) : Int := if x < 200 then 200 else x

/-- baseEnemyShootDelay after the n-th wave transition of a fresh session:
the source performs baseEnemyShootDelay -= 50 * wave at each transition, so
the base itself decreases cumulatively (16-bit int wrap-around applies). -/
def baseSeq : Nat → Int
  | 0 => 1000
  | n + 1 => wrap16 (baseSeq n - 50 * ((n : Int) + 1))

/-- enemyShootDelay after the n-th wave transition of a fresh session. -/
def delaySeq : Nat → Int
  | 0 => 1000
  | n + 1 => clamp200 (baseSeq (n + 1))

/-- A session of successive wave transitions from a fresh game (template
index oracle fixed to 0): ties the delaySeq recurrence to waveTransition. -/
def iterTrans : Nat → St
  | 0 => initState
  | n + 1 => waveTransition 0 (iterTrans n)

/-- A playout of a fresh game: the first wave transition stamps WAVE_4 (whose
columns 3 and 4 hold no enemy), the player shoots from the initial cursor
column 4, and six bullet-advance ticks carry the bullet up to row 7. -/
def c1state : Option St := ticksN 6 (shootStep (waveTransition 3 initState))

/-- An enemy bullet two rows above the cursor column (cursor at column 4,
bullet at row 2): the scenario of the loss-transition claim with N = 2. -/
def c5start : St := { initState with grid := gsetT emptyGrid 2 4 ENEMY_BULLET, wave := 1 }

/-- Two TierB enemies on the enemy home row, columns 0 and 5, otherwise
empty: both are eligible shooters. -/
def c2grid : Grid := gsetT (gsetT emptyGrid 7 0 ENEMY_B) 7 5 ENEMY_B

def c2start : St := { initState with grid := c2grid }

/-- A random oracle whose every draw is favorable (99 >= 50). -/
def allFire : Nat → Nat := fun _ => 99

/-- A mid-session state at a wave transition point: weighted kills have just
reached the weighted enemy total. -/
def c4start : St := { initState with kills := 5, enemies := 5, wave := 1 }

/-- A player bullet at (3,2) and an enemy bullet at (5,2): both are scheduled
to move into cell (4,2) on the same tick. -/
def c6apartStart : St :=
  { initState with grid := gsetT (gsetT emptyGrid 3 2 BULLET) 5 2 ENEMY_BULLET, wave := 3, score := 100 }

/-- A player bullet at (3,2) with the enemy bullet already in its destination
cell (4,2): the head-on case. -/
def c6headOnStart : St :=
  { initState with grid := gsetT (gsetT emptyGrid 3 2 BULLET) 4 2 ENEMY_BULLET, wave := 3, score := 100 }

/-- A wave holding a single TierD enemy at column 3 (stamped at grid row 7),
cursor on column 3, weighted enemy count 3. -/
def c9start : St :=
  { initState with grid := gsetT emptyGrid 7 3 ENEMY_D, cursorX := 3, wave := 1, enemies := 3 }

/-- First shot and its six-tick flight up column 3 into the TierD enemy. -/
def c9run1 : Option St := ticksN 6 (shootStep c9start)

/-- Second shot and flight. -/
def c9run2 : Option St := c9run1.bind fun s => ticksN 6 (shootStep s)

/-- Third shot and flight. -/
def c9run3 : Option St := c9run2.bind fun s => ticksN 6 (shootStep s)

/-- A scan order where each position's one-cell-upward neighbour (the pass-1
destination) is never scanned later than the position itself: such an order
can move each bullet at most once per pass. -/
def goodDesc : List (Nat × Nat) → Bool
  | [] => true
  | p :: rest => (decide (p ∉ rest) && decide ((p.1 + 1, p.2) ∉ rest)) && goodDesc rest

/-- A scan order where each position's one-cell-downward neighbour (the
pass-2 destination) is never scanned later than the position itself. -/
def goodAsc : List (Nat × Nat) → Bool
  | [] => true
  | p :: rest => (decide (p ∉ rest) && decide ((p.1 - 1, p.2) ∉ rest)) && goodAsc rest

/-- The cursor invariant: the cursor column stays on the 8-wide board and the
CURSOR marker never appears in a grid cell. -/
def StInv (s : St) : Prop :=
  s.cursorX ≤ 7 ∧ ∀ r c, gget s.grid r c ≠ some CURSOR

/-- Claim C1: refuted by the code.  The out-of-bounds error branch of the
bullet-advance step IS reachable: from a fresh game (WAVE_4 stamped, one shot
from column 4, six ticks) a player bullet sits in row 7 and the next tick
reads row 8 and aborts; likewise an enemy bullet reaches row 0 (cursor
column) after two ticks and the next tick reads row -1 and aborts. -/
theorem c1_oob_reachable :
    (c1state.bind fun s => gget s.grid 7 4) = some BULLET ∧
    c1state.bind advanceTick = none ∧
    ((ticksN 2 c5start).bind fun s => gget s.grid 0 4) = some ENEMY_BULLET ∧
    (ticksN 2 c5start).bind advanceTick = none := by decide

/-- Claim C5: refuted by the code.  With the enemy bullet two cells above the
cursor column, two bullet-advance ticks produce NO loss transition (the
cursor cell is EMPTY in the grid, so the bullet moves into it silently);
the loss can only be considered one tick later, where the pass first performs
the out-of-bounds row -1 read. -/
theorem c5_no_loss_on_arrival :
    ((ticksN 2 c5start).map fun s => (s.losses, gget s.grid 0 4))
      = some (0, some ENEMY_BULLET) ∧
    ticksN 3 c5start = none := by decide

/-- Claim C2: refuted.  On a due enemy-fire tick with two eligible TierB
enemies (columns 0 and 5) and all draws favorable, the controller spawns TWO
enemy bullets, not at most one: the scan has no stop-after-first-fire. -/
theorem c2_counterexample :
    countCell ((enemyShoot allFire c2start).grid) ENEMY_BULLET = 2 ∧
    ¬ countCell ((enemyShoot allFire c2start).grid) ENEMY_BULLET ≤ 1 := by decide

/-- Claim C2 amended: on a due enemy-fire tick the scan does not stop after a
fire; every eligible TierB/C/D enemy with a favorable draw, no occupied cell
below it, and an EMPTY cell immediately below spawns one enemy bullet there,
so one bullet per eligible enemy can spawn in a single due tick (here: two
eligible enemies produce exactly the two bullets below them). -/
theorem c2_amended :
    (enemyShoot allFire c2start).grid
      = gsetT (gsetT c2grid 6 0 ENEMY_BULLET) 6 5 ENEMY_BULLET ∧
    countCell c2start.grid ENEMY_BULLET = 0 ∧
    countCell ((enemyShoot allFire c2start).grid) ENEMY_BULLET = 2 := by decide

/-- Claim C3: refuted.  At the second wave transition of a fresh session the
code yields interval 850, but the claimed formula max(200, 1000 - 50 * 2)
gives 900: the source decrements the base itself (-=), so the subtraction is
cumulative, not affine in the wave number. -/
theorem c3_counterexample :
    (waveTransition 0 (waveTransition 0 initState)).wave = 2 ∧
    (waveTransition 0 (waveTransition 0 initState)).delay = 850 ∧
    delaySeq 2 = 850 ∧
    ¬ (waveTransition 0 (waveTransition 0 initState)).delay
        = max 200 (1000 - 50 * 2) := by decide

/-- Claim C3 amended: at the n-th wave transition the base is cumulatively
decremented by 50 * wave, so (while the arithmetic stays in 16-bit range,
i.e. for n <= 36) the new interval is max(200, 1000 - 25 n (n+1)) rather
than max(200, 1000 - 50 n). -/
theorem c3_amended (n : Nat) (h : n ≤ 36) :
    delaySeq n = max 200 (1000 - 25 * (n : Int) * ((n : Int) + 1)) := by
  revert h
  revert n
  decide

/-- Witness for the amended C3 at n = 2. -/
theorem c3_amended_witness :
    delaySeq 2 = max 200 (1000 - 25 * ((2 : Nat) : Int) * (((2 : Nat) : Int) + 1)) :=
  c3_amended 2 (by decide)

/-- Claim C4: refuted.  At a wave transition (kills >= enemies holds) the
weighted-kill counter is NOT reset: here it stays 5 after the transition. -/
theorem c4_counterexample :
    c4start.enemies ≤ c4start.kills ∧
    (waveTransition 0 c4start).kills = 5 ∧
    (waveTransition 0 c4start).kills ≠ 0 := by decide

/-- Claim C6: refuted.  With the player bullet at (3,2) and the enemy bullet
at (5,2), both scheduled into (4,2) on the same tick, pass 1 moves the player
bullet in first and pass 2 then merely clears the enemy bullet: the player
bullet SURVIVES at (4,2) and no intercept bonus is awarded (score stays 100,
not 100 + 1 * wave). -/
theorem c6_counterexample :
    ((advanceTick c6apartStart).map fun s =>
        (gget s.grid 4 2, countCell s.grid ENEMY_BULLET, s.score, s.losses))
      = some (some BULLET, 0, 100, 0) ∧
    (100 : Nat) ≠ 100 + 1 * c6apartStart.wave := by decide

/-- Claim C6 amended: mutual annihilation with the wave-scaled intercept
bonus happens in the head-on case, when the enemy bullet occupies the player
bullet's immediate destination cell at pass-1 time: both cells are cleared
and the score rises by exactly 1 * wave, once, with no kill counted and no
loss; in the two-cells-apart case only the enemy bullet is removed and no
bonus is paid. -/
theorem c6_amended :
    ((advanceTick c6headOnStart).map fun s =>
        (gget s.grid 3 2, gget s.grid 4 2, s.score))
      = some (some EMPTY, some EMPTY, 100 + 1 * 3) ∧
    ((advanceTick c6headOnStart).map fun s =>
        (countCell s.grid BULLET, countCell s.grid ENEMY_BULLET, s.kills, s.losses))
      = some (0, 0, 0, 0) := by decide

/-- Claim C7: refuted.  In 16-bit int arithmetic the cumulative decrement of
the base wraps at wave 37: the interval jumps from 200 (wave 36) up to 31386,
so the enemy-fire interval is NOT non-increasing in the wave number (the 200
floor itself does hold, see the amended theorem). -/
theorem c7_counterexample :
    delaySeq 36 = 200 ∧ delaySeq 37 = 31386 ∧
    ¬ delaySeq 37 ≤ delaySeq 36 := by decide

/-- Claim C7 amended: the floor bound holds at every transition (the interval
never drops below 200), and the interval is non-increasing through wave 36;
monotonicity is lost at wave 37 when the 16-bit subtraction wraps. -/
theorem c7_amended :
    (∀ n : Nat, 200 ≤ delaySeq (n + 1)) ∧
    (∀ n : Nat, 1 ≤ n → n ≤ 35 → delaySeq (n + 1) ≤ delaySeq n) := by
  constructor
  · intro n
    show 200 ≤ clamp200 (baseSeq (n + 1))
    unfold clamp200
    split
    · omega
    · omega
  · decide

/-- Witness for the amended C7 at concrete waves. -/
theorem c7_amended_witness : 200 ≤ delaySeq 6 ∧ delaySeq 3 ≤ delaySeq 2 :=
  ⟨c7_amended.1 5, c7_amended.2 2 (by decide) (by decide)⟩

/-- Claim C9: confirmed.  A wave holding a single TierD at column 3: three
consecutive shots from that column (each bullet flying six ticks) downgrade
the enemy TierD to TierC to TierB to destroyed, and the weighted-kill counter
reads 1, 2, 3 after the successive hits, one unit per hit even when the hit
only downgrades. -/
theorem c9_tierD_downgrade_chain :
    (c9run1.map fun s => (s.kills, gget s.grid 7 3)) = some (1, some ENEMY_C) ∧
    (c9run2.map fun s => (s.kills, gget s.grid 7 3)) = some (2, some ENEMY_B) ∧
    (c9run3.map fun s => (s.kills, gget s.grid 7 3)) = some (3, some EMPTY) := by decide

/-- A successful write makes the written cell read back the new value. -/
theorem gget_gset_self {g g1 : Grid} {r c v : Nat} (h : gset g r c v = some g1) :
    gget g1 r c = some v := by
  unfold gset at h
  split at h
  · cases h
  next row hrow =>
    split at h
    · cases h
    next w hc =>
      cases h
      have hr : r < g.length := (List.getElem?_eq_some_iff.mp hrow).1
      have hcl : c < row.length := (List.getElem?_eq_some_iff.mp hc).1
      simp [gget, List.getElem?_set_self hr, List.getElem?_set_self hcl]

/-- A successful write leaves every other cell unchanged. -/
theorem gget_gset_ne {g g1 : Grid} {r c v : Nat} (h : gset g r c v = some g1)
    (r1 c1 : Nat) (hne : ¬(r1 = r ∧ c1 = c)) : gget g1 r1 c1 = gget g r1 c1 := by
  unfold gset at h
  split at h
  · cases h
  next row hrow =>
    split at h
    · cases h
    next w hc =>
      cases h
      by_cases hr : r1 = r
      · subst hr
        have hcne : ¬ c1 = c := fun hcc => hne ⟨rfl, hcc⟩
        have hrlt : r1 < g.length := (List.getElem?_eq_some_iff.mp hrow).1
        simp [gget, List.getElem?_set_self hrlt, hrow,
          List.getElem?_set_ne (fun hcc => hcne hcc.symm)]
      · simp [gget, List.getElem?_set_ne (fun hrr => hr hrr.symm)]

/-- Any value read after a successful write is the written value or an old
value. -/
theorem gget_gset_cases {g g1 : Grid} {r c v : Nat} (h : gset g r c v = some g1)
    (r1 c1 w : Nat) (hw : gget g1 r1 c1 = some w) : w = v ∨ gget g r1 c1 = some w := by
  by_cases hp : r1 = r ∧ c1 = c
  · obtain ⟨h1, h2⟩ := hp
    subst h1; subst h2
    rw [gget_gset_self h] at hw
    cases hw
    exact Or.inl rfl
  · right
    rw [← gget_gset_ne h r1 c1 hp]
    exact hw

/-- The pair write: the second cell reads the second value. -/
theorem setPair_snd {g g2 : Grid} {r1 c1 v1 r2 c2 v2 : Nat}
    (h : setPair g r1 c1 v1 r2 c2 v2 = some g2) : gget g2 r2 c2 = some v2 := by
  unfold setPair at h
  cases h1 : gset g r1 c1 v1 with
  | none => rw [h1] at h; cases h
  | some ga => rw [h1] at h; exact gget_gset_self h

/-- The pair write: cells other than the two written ones are unchanged. -/
theorem setPair_frame {g g2 : Grid} {r1 c1 v1 r2 c2 v2 : Nat}
    (h : setPair g r1 c1 v1 r2 c2 v2 = some g2) (r c : Nat)
    (hn1 : ¬(r = r1 ∧ c = c1)) (hn2 : ¬(r = r2 ∧ c = c2)) :
    gget g2 r c = gget g r c := by
  unfold setPair at h
  cases h1 : gset g r1 c1 v1 with
  | none => rw [h1] at h; cases h
  | some ga =>
    rw [h1] at h
    rw [gget_gset_ne h r c hn2]
    exact gget_gset_ne h1 r c hn1

/-- The pair write: any readable value is one of the two written values or an
old value. -/
theorem setPair_cases {g g2 : Grid} {r1 c1 v1 r2 c2 v2 : Nat}
    (h : setPair g r1 c1 v1 r2 c2 v2 = some g2) (r c w : Nat)
    (hw : gget g2 r c = some w) : w = v1 ∨ w = v2 ∨ gget g r c = some w := by
  unfold setPair at h
  cases h1 : gset g r1 c1 v1 with
  | none => rw [h1] at h; cases h
  | some ga =>
    rw [h1] at h
    rcases gget_gset_cases h r c w hw with hc1 | hc2
    · exact Or.inr (Or.inl hc1)
    · rcases gget_gset_cases h1 r c w hc2 with hd1 | hd2
      · exact Or.inl hd1
      · exact Or.inr (Or.inr hd2)

/-- Reading the all-EMPTY grid can only yield EMPTY. -/
theorem gget_emptyGrid {r c v : Nat} (h : gget emptyGrid r c = some v) : v = EMPTY := by
  unfold gget emptyGrid at h
  rw [List.getElem?_replicate] at h
  by_cases hr : r < 8
  · rw [if_pos hr] at h
    rw [Option.some_bind, List.getElem?_replicate] at h
    by_cases hc : c < 8
    · rw [if_pos hc] at h
      cases h
      rfl
    · rw [if_neg hc] at h
      cases h
  · rw [if_neg hr] at h
    cases h

/-- Backward propagation of a cell predicate through a fallible fold. -/
theorem runSteps_back (f : Nat × Nat → St → Option St) (P : St → Prop)
    (hf : ∀ p s s1, f p s = some s1 → P s1 → P s) :
    ∀ (l : List (Nat × Nat)) (s s1 : St), runSteps f l s = some s1 → P s1 → P s := by
  intro l
  induction l with
  | nil =>
    intro s s1 h hP
    unfold runSteps at h
    cases h
    exact hP
  | cons p ps ih =>
    intro s s1 h hP
    unfold runSteps at h
    cases hstep : f p s with
    | none => rw [hstep] at h; cases h
    | some s2 =>
      rw [hstep] at h
      exact hf p s s2 hstep (ih s2 s1 h hP)

/-- Forward preservation of a state predicate through a fallible fold. -/
theorem runSteps_fwd (f : Nat × Nat → St → Option St) (P : St → Prop)
    (hf : ∀ p s s1, f p s = some s1 → P s → P s1) :
    ∀ (l : List (Nat × Nat)) (s s1 : St), runSteps f l s = some s1 → P s → P s1 := by
  intro l
  induction l with
  | nil =>
    intro s s1 h hP
    unfold runSteps at h
    cases h
    exact hP
  | cons p ps ih =>
    intro s s1 h hP
    unfold runSteps at h
    cases hstep : f p s with
    | none => rw [hstep] at h; cases h
    | some s2 =>
      rw [hstep] at h
      exact ih s2 s1 h (hf p s s2 hstep hP)

/-- Forward preservation of a state predicate through a total fold, with the
step hypothesis restricted to the scanned positions. -/
theorem runT_fwd_mem (f : Nat × Nat → St → St) (P : St → Prop) :
    ∀ (l : List (Nat × Nat)), (∀ p, p ∈ l → ∀ s, P s → P (f p s)) →
      ∀ s, P s → P (runT f l s) := by
  intro l
  induction l with
  | nil => intro _ s hP; exact hP
  | cons p ps ih =>
    intro hf s hP
    exact ih (fun q hq => hf q (List.mem_cons_of_mem p hq)) (f p s)
      (hf p (List.mem_cons_self p ps) s hP)

/-- Common shape of the acting branches of pass 1: the cell at p held a
player bullet and the branch wrote vup into the cell above and EMPTY into p. -/
theorem pass1_write_spec {s : St} {g : Grid} {p : Nat × Nat} {vup : Nat}
    (hB : gget s.grid p.1 p.2 = some BULLET)
    (h : setPair s.grid (p.1 + 1) p.2 vup p.1 p.2 EMPTY = some g)
    (hvE : vup ≠ ENEMY_BULLET) :
    (∀ r c, ¬(r = p.1 ∧ c = p.2) → ¬(r = p.1 + 1 ∧ c = p.2) →
        gget g r c = gget s.grid r c)
    ∧ (gget g p.1 p.2 = some BULLET → gget s.grid p.1 p.2 = some BULLET)
    ∧ (gget g (p.1 + 1) p.2 = some BULLET →
        gget s.grid (p.1 + 1) p.2 = some BULLET ∨ gget s.grid p.1 p.2 = some BULLET)
    ∧ (∀ r c, gget g r c = some ENEMY_BULLET → gget s.grid r c = some ENEMY_BULLET) := by
  refine ⟨?_, fun _ => hB, fun _ => Or.inr hB, ?_⟩
  · intro r c h1 h2
    exact setPair_frame h r c h2 h1
  · intro r c hw
    rcases setPair_cases h r c ENEMY_BULLET hw with h1 | h2 | h3
    · exact absurd h1.symm hvE
    · exact absurd h2 (by decide)
    · exact h3

/-- The per-position behaviour of pass 1 needed for the one-cell-per-tick
property: positions other than p and the cell above p are untouched; a
bullet found at p afterwards was there before; a bullet above p afterwards
was above p or at p before; pass 1 never writes an enemy bullet. -/
theorem step1_spec {p : Nat × Nat} {s s1 : St} (h : step1 p s = some s1) :
    (∀ r c, ¬(r = p.1 ∧ c = p.2) → ¬(r = p.1 + 1 ∧ c = p.2) →
        gget s1.grid r c = gget s.grid r c)
    ∧ (gget s1.grid p.1 p.2 = some BULLET → gget s.grid p.1 p.2 = some BULLET)
    ∧ (gget s1.grid (p.1 + 1) p.2 = some BULLET →
        gget s.grid (p.1 + 1) p.2 = some BULLET ∨ gget s.grid p.1 p.2 = some BULLET)
    ∧ (∀ r c, gget s1.grid r c = some ENEMY_BULLET →
        gget s.grid r c = some ENEMY_BULLET) := by
  have htriv : s1 = s →
      (∀ r c, ¬(r = p.1 ∧ c = p.2) → ¬(r = p.1 + 1 ∧ c = p.2) →
          gget s1.grid r c = gget s.grid r c)
      ∧ (gget s1.grid p.1 p.2 = some BULLET → gget s.grid p.1 p.2 = some BULLET)
      ∧ (gget s1.grid (p.1 + 1) p.2 = some BULLET →
          gget s.grid (p.1 + 1) p.2 = some BULLET ∨ gget s.grid p.1 p.2 = some BULLET)
      ∧ (∀ r c, gget s1.grid r c = some ENEMY_BULLET →
          gget s.grid r c = some ENEMY_BULLET) := by
    intro he
    subst he
    exact ⟨fun _ _ _ _ => rfl, fun hh => hh, fun hh => Or.inl hh, fun _ _ hh => hh⟩
  unfold step1 at h
  split at h
  · cases h
  next v hv =>
    split at h
    case isFalse => cases h; exact htriv rfl
    next hvB =>
      subst hvB
      split at h
      case isFalse =>
        -- p.1 = 0: the bullet is removed
        split at h
        · cases h
        next g hg =>
          cases h
          refine ⟨?_, fun _ => hv, ?_, ?_⟩
          · intro r c h1 _
            exact gget_gset_ne hg r c h1
          · intro hup
            left
            rw [← gget_gset_ne hg (p.1 + 1) p.2 (by omega)]
            exact hup
          · intro r c hw
            rcases gget_gset_cases hg r c ENEMY_BULLET hw with h1 | h2
            · exact absurd h1 (by decide)
            · exact h2
      case isTrue =>
        split at h
        · cases h
        next above habove =>
          split at h
          · -- above EMPTY: move
            split at h
            · cases h
            next g hg => cases h; exact pass1_write_spec hv hg (by decide)
          split at h
          · -- ENEMY_A
            split at h
            · cases h
            next g hg => cases h; exact pass1_write_spec hv hg (by decide)
          split at h
          · -- ENEMY_B
            split at h
            · cases h
            next g hg => cases h; exact pass1_write_spec hv hg (by decide)
          split at h
          · -- ENEMY_C
            split at h
            · cases h
            next g hg => cases h; exact pass1_write_spec hv hg (by decide)
          split at h
          · -- ENEMY_D
            split at h
            · cases h
            next g hg => cases h; exact pass1_write_spec hv hg (by decide)
          split at h
          · -- ENEMY_BULLET: annihilation
            split at h
            · cases h
            next g hg => cases h; exact pass1_write_spec hv hg (by decide)
          · -- blocked
            cases h
            exact htriv rfl

/-- The per-position behaviour of pass 2: either a gameover reset happened
(the grid is the empty grid), or positions other than p and the cell below p
are untouched, an enemy bullet found at p afterwards was there before, an
enemy bullet below p afterwards was there or at p before, and pass 2 never
writes a player bullet. -/
theorem step2_spec {p : Nat × Nat} {s s1 : St} (h : step2 p s = some s1) :
    s1.grid = emptyGrid ∨
    ((∀ r c, ¬(r = p.1 ∧ c = p.2) → ¬(p.1 = r + 1 ∧ c = p.2) →
        gget s1.grid r c = gget s.grid r c)
     ∧ (gget s1.grid p.1 p.2 = some ENEMY_BULLET →
        gget s.grid p.1 p.2 = some ENEMY_BULLET)
     ∧ (∀ r c, p.1 = r + 1 → c = p.2 → gget s1.grid r c = some ENEMY_BULLET →
        gget s.grid r c = some ENEMY_BULLET ∨ gget s.grid p.1 p.2 = some ENEMY_BULLET)
     ∧ (∀ r c, gget s1.grid r c = some BULLET → gget s.grid r c = some BULLET)) := by
  have htriv : s1 = s →
      s1.grid = emptyGrid ∨
      ((∀ r c, ¬(r = p.1 ∧ c = p.2) → ¬(p.1 = r + 1 ∧ c = p.2) →
          gget s1.grid r c = gget s.grid r c)
       ∧ (gget s1.grid p.1 p.2 = some ENEMY_BULLET →
          gget s.grid p.1 p.2 = some ENEMY_BULLET)
       ∧ (∀ r c, p.1 = r + 1 → c = p.2 → gget s1.grid r c = some ENEMY_BULLET →
          gget s.grid r c = some ENEMY_BULLET ∨ gget s.grid p.1 p.2 = some ENEMY_BULLET)
       ∧ (∀ r c, gget s1.grid r c = some BULLET → gget s.grid r c = some BULLET)) := by
    intro he
    subst he
    exact Or.inr ⟨fun _ _ _ _ => rfl, fun hh => hh, fun _ _ _ _ hw => Or.inl hw,
      fun _ _ hh => hh⟩
  unfold step2 at h
  split at h
  · cases h
  next v hv =>
    split at h
    case isFalse => cases h; exact htriv rfl
    next hvEB =>
      subst hvEB
      split at h
      · cases h
      next r0 hp1 =>
        split at h
        · cases h
        next below hbelow =>
          split at h
          · -- below EMPTY: the enemy bullet moves down
            split at h
            · cases h
            next g hg =>
              cases h
              refine Or.inr ⟨?_, fun _ => hv, fun _ _ _ _ _ => Or.inr hv, ?_⟩
              · intro r c h1 h2
                refine setPair_frame hg r c ?_ ?_
                · intro hh
                  exact h2 ⟨by omega, hh.2⟩
                · intro hh
                  exact h1 ⟨by omega, hh.2⟩
              · intro r c hw
                rcases setPair_cases hg r c BULLET hw with h1 | h2 | h3
                · exact absurd h1 (by decide)
                · exact absurd h2 (by decide)
                · exact h3
          split at h
          · -- about to enter row 0 at the cursor column: gameover
            cases h
            exact Or.inl rfl
          · -- blocked elsewhere: the enemy bullet is cleared
            split at h
            · cases h
            next g hg =>
              cases h
              refine Or.inr ⟨?_, fun _ => hv, fun _ _ _ _ _ => Or.inr hv, ?_⟩
              · intro r c h1 _
                refine gget_gset_ne hg r c ?_
                intro hh
                exact h1 ⟨by omega, hh.2⟩
              · intro r c hw
                rcases gget_gset_cases hg r c BULLET hw with h1 | h2
                · exact absurd h1 (by decide)
                · exact h2

/-- The bottom-row cleanup only clears cells, so both bullet kinds propagate
backwards through it. -/
theorem stepClean_spec {p : Nat × Nat} {s s1 : St} (h : stepClean p s = some s1) :
    (∀ r c, gget s1.grid r c = some BULLET → gget s.grid r c = some BULLET)
    ∧ (∀ r c, gget s1.grid r c = some ENEMY_BULLET →
        gget s.grid r c = some ENEMY_BULLET) := by
  unfold stepClean at h
  split at h
  · cases h
  next v hv =>
    split at h
    case isFalse => cases h; exact ⟨fun _ _ hh => hh, fun _ _ hh => hh⟩
    next hvEB =>
      split at h
      · cases h
      next g hg =>
        cases h
        constructor
        · intro r c hw
          rcases gget_gset_cases hg r c BULLET hw with h1 | h2
          · exact absurd h1 (by decide)
          · exact h2
        · intro r c hw
          rcases gget_gset_cases hg r c ENEMY_BULLET hw with h1 | h2
          · exact absurd h1 (by decide)
          · exact h2

/-- Provenance of player bullets through pass 1, by induction along the scan
order: since the one-cell-upward destination of every scanned position was
scanned earlier, a bullet can be moved at most once, so in the resulting grid
every player bullet sits where it started or one row above. -/
theorem runSteps1_prov :
    ∀ (l : List (Nat × Nat)), goodDesc l = true →
    ∀ (g0 s s1 : St),
      (∀ p, p ∈ l → gget s.grid p.1 p.2 = gget g0.grid p.1 p.2) →
      (∀ r c, gget s.grid r c = some BULLET →
        gget g0.grid r c = some BULLET ∨ (1 ≤ r ∧ gget g0.grid (r - 1) c = some BULLET)) →
      runSteps step1 l s = some s1 →
      ∀ r c, gget s1.grid r c = some BULLET →
        gget g0.grid r c = some BULLET ∨ (1 ≤ r ∧ gget g0.grid (r - 1) c = some BULLET) := by
  intro l
  induction l with
  | nil =>
    intro _ g0 s s1 _ hprov hrun
    unfold runSteps at hrun
    cases hrun
    exact hprov
  | cons p rest ih =>
    intro hgood g0 s s1 huntouched hprov hrun
    simp only [goodDesc, Bool.and_eq_true, decide_eq_true_eq] at hgood
    obtain ⟨⟨hnp, hnup⟩, hgrest⟩ := hgood
    unfold runSteps at hrun
    cases hstep : step1 p s with
    | none => rw [hstep] at hrun; cases hrun
    | some s2 =>
      rw [hstep] at hrun
      obtain ⟨hframe, hatp, hatup, _⟩ := step1_spec hstep
      refine ih hgrest g0 s2 s1 ?_ ?_ hrun
      · intro q hq
        have hq1 : ¬(q.1 = p.1 ∧ q.2 = p.2) := by
          intro hh
          exact hnp ((Prod.ext hh.1 hh.2) ▸ hq)
        have hq2 : ¬(q.1 = p.1 + 1 ∧ q.2 = p.2) := by
          intro hh
          have hqe : q = (p.1 + 1, p.2) := Prod.ext hh.1 hh.2
          exact hnup (hqe ▸ hq)
        rw [hframe q.1 q.2 hq1 hq2]
        exact huntouched q (List.mem_cons_of_mem p hq)
      · intro r c hb
        by_cases h1 : r = p.1 ∧ c = p.2
        · obtain ⟨e1, e2⟩ := h1
          subst e1; subst e2
          have hsb := hatp hb
          rw [huntouched p (List.mem_cons_self p rest)] at hsb
          exact Or.inl hsb
        · by_cases h2 : r = p.1 + 1 ∧ c = p.2
          · obtain ⟨e1, e2⟩ := h2
            subst e1; subst e2
            rcases hatup hb with hcase | hcase
            · exact hprov _ _ hcase
            · rw [huntouched p (List.mem_cons_self p rest)] at hcase
              refine Or.inr ⟨by omega, ?_⟩
              simpa using hcase
          · rw [hframe r c h1 h2] at hb
            exact hprov r c hb

/-- Pass 1 over the full descending scan: bullet provenance. -/
theorem pass1_bullet_prov {s s1 : St} (h : pass1 s = some s1) :
    ∀ r c, gget s1.grid r c = some BULLET →
      gget s.grid r c = some BULLET ∨ (1 ≤ r ∧ gget s.grid (r - 1) c = some BULLET) :=
  runSteps1_prov scan1 (by decide) s s s1 (fun _ _ => rfl) (fun _ _ hb => Or.inl hb) h

/-- Pass 1 never writes an enemy bullet. -/
theorem pass1_eb_frame {s s1 : St} (h : pass1 s = some s1) :
    ∀ r c, gget s1.grid r c = some ENEMY_BULLET → gget s.grid r c = some ENEMY_BULLET :=
  fun r c hb =>
    runSteps_back step1 (fun t => gget t.grid r c = some ENEMY_BULLET)
      (fun _ _ _ hs hP => (step1_spec hs).2.2.2 r c hP) scan1 s s1 h hb

/-- After a gameover reset the rest of pass 2 keeps the grid empty. -/
theorem step2_empty {p : Nat × Nat} {s s1 : St} (h : step2 p s = some s1)
    (hg : s.grid = emptyGrid) : s1.grid = emptyGrid := by
  unfold step2 at h
  split at h
  · cases h
  next v hv =>
    split at h
    case isFalse => cases h; exact hg
    next hvEB =>
      subst hvEB
      rw [hg] at hv
      exact absurd (gget_emptyGrid hv) (by decide)

/-- The empty grid is absorbing for any tail of pass 2. -/
theorem runSteps2_empty {l : List (Nat × Nat)} {s s1 : St}
    (h : runSteps step2 l s = some s1) (hg : s.grid = emptyGrid) :
    s1.grid = emptyGrid :=
  runSteps_fwd step2 (fun t => t.grid = emptyGrid)
    (fun _ _ _ hs hP => step2_empty hs hP) l s s1 h hg

/-- Provenance of enemy bullets through pass 2, by induction along the scan
order: since the one-cell-downward destination of every scanned position was
scanned earlier, an enemy bullet moves at most once per pass; a gameover
reset clears the grid and makes the claim vacuous. -/
theorem runSteps2_prov :
    ∀ (l : List (Nat × Nat)), goodAsc l = true →
    ∀ (g0 s s1 : St),
      (∀ p, p ∈ l → gget s.grid p.1 p.2 = gget g0.grid p.1 p.2) →
      (∀ r c, gget s.grid r c = some ENEMY_BULLET →
        gget g0.grid r c = some ENEMY_BULLET ∨ gget g0.grid (r + 1) c = some ENEMY_BULLET) →
      runSteps step2 l s = some s1 →
      ∀ r c, gget s1.grid r c = some ENEMY_BULLET →
        gget g0.grid r c = some ENEMY_BULLET ∨ gget g0.grid (r + 1) c = some ENEMY_BULLET := by
  intro l
  induction l with
  | nil =>
    intro _ g0 s s1 _ hprov hrun
    unfold runSteps at hrun
    cases hrun
    exact hprov
  | cons p rest ih =>
    intro hgood g0 s s1 huntouched hprov hrun
    simp only [goodAsc, Bool.and_eq_true, decide_eq_true_eq] at hgood
    obtain ⟨⟨hnp, hndown⟩, hgrest⟩ := hgood
    unfold runSteps at hrun
    cases hstep : step2 p s with
    | none => rw [hstep] at hrun; cases hrun
    | some s2 =>
      rw [hstep] at hrun
      rcases step2_spec hstep with hempty | ⟨hframe, hatp, hatdown, _⟩
      · have hfin : s1.grid = emptyGrid := runSteps2_empty hrun hempty
        intro r c hb
        rw [hfin] at hb
        exact absurd (gget_emptyGrid hb) (by decide)
      · refine ih hgrest g0 s2 s1 ?_ ?_ hrun
        · intro q hq
          have hq1 : ¬(q.1 = p.1 ∧ q.2 = p.2) := by
            intro hh
            exact hnp ((Prod.ext hh.1 hh.2) ▸ hq)
          have hq2 : ¬(p.1 = q.1 + 1 ∧ q.2 = p.2) := by
            intro hh
            apply hndown
            have hqe : q = (p.1 - 1, p.2) := Prod.ext (by omega) hh.2
            exact hqe ▸ hq
          rw [hframe q.1 q.2 hq1 hq2]
          exact huntouched q (List.mem_cons_of_mem p hq)
        · intro r c hb
          by_cases h1 : r = p.1 ∧ c = p.2
          · obtain ⟨e1, e2⟩ := h1
            subst e1; subst e2
            have hsb := hatp hb
            rw [huntouched p (List.mem_cons_self p rest)] at hsb
            exact Or.inl hsb
          · by_cases h2 : p.1 = r + 1 ∧ c = p.2
            · rcases hatdown r c h2.1 h2.2 hb with hcase | hcase
              · exact hprov _ _ hcase
              · rw [huntouched p (List.mem_cons_self p rest)] at hcase
                right
                rw [← h2.1, h2.2]
                exact hcase
            · rw [hframe r c h1 h2] at hb
              exact hprov r c hb

/-- Pass 2 over the full ascending scan: enemy bullet provenance. -/
theorem pass2_eb_prov {s s1 : St} (h : pass2 s = some s1) :
    ∀ r c, gget s1.grid r c = some ENEMY_BULLET →
      gget s.grid r c = some ENEMY_BULLET ∨ gget s.grid (r + 1) c = some ENEMY_BULLET :=
  runSteps2_prov scan2 (by decide) s s s1 (fun _ _ => rfl) (fun _ _ hb => Or.inl hb) h

/-- Pass 2 never writes a player bullet. -/
theorem pass2_b_back {s s1 : St} (h : pass2 s = some s1) :
    ∀ r c, gget s1.grid r c = some BULLET → gget s.grid r c = some BULLET := by
  intro r c hb
  refine runSteps_back step2 (fun t => gget t.grid r c = some BULLET) ?_ scan2 s s1 h hb
  intro p u u1 hs hP
  rcases step2_spec hs with hempty | ⟨_, _, _, hB⟩
  · rw [hempty] at hP
    exact absurd (gget_emptyGrid hP) (by decide)
  · exact hB r c hP

/-- The bottom-row cleanup only clears cells. -/
theorem cleanup_back {s s1 : St} (h : cleanupPass s = some s1) :
    (∀ r c, gget s1.grid r c = some BULLET → gget s.grid r c = some BULLET)
    ∧ (∀ r c, gget s1.grid r c = some ENEMY_BULLET →
        gget s.grid r c = some ENEMY_BULLET) := by
  constructor
  · intro r c hb
    exact runSteps_back stepClean (fun t => gget t.grid r c = some BULLET)
      (fun _ _ _ hs hP => (stepClean_spec hs).1 r c hP) scanClean s s1 h hb
  · intro r c hb
    exact runSteps_back stepClean (fun t => gget t.grid r c = some ENEMY_BULLET)
      (fun _ _ _ hs hP => (stepClean_spec hs).2 r c hP) scanClean s s1 h hb

/-- Claim C8: confirmed.  On every successful bullet-advance tick each bullet
moves at most one cell: every player bullet of the resulting grid was already
there or one row below (its single upward move), and every enemy bullet was
already there or one row above (its single downward move); the scan orders of
the two passes revisit no cell, so a bullet moved earlier in a pass is never
moved again within the same tick. -/
theorem c8_one_cell_per_tick (s s1 : St) (h : advanceTick s = some s1) :
    (∀ r c, gget s1.grid r c = some BULLET →
      gget s.grid r c = some BULLET ∨ (1 ≤ r ∧ gget s.grid (r - 1) c = some BULLET)) ∧
    (∀ r c, gget s1.grid r c = some ENEMY_BULLET →
      gget s.grid r c = some ENEMY_BULLET ∨ gget s.grid (r + 1) c = some ENEMY_BULLET) := by
  unfold advanceTick at h
  rcases Option.bind_eq_some.mp h with ⟨t1, h1, h2⟩
  rcases Option.bind_eq_some.mp h2 with ⟨t2, h3, h4⟩
  constructor
  · intro r c hb
    exact pass1_bullet_prov h1 r c (pass2_b_back h3 r c ((cleanup_back h4).1 r c hb))
  · intro r c hb
    rcases pass2_eb_prov h3 r c ((cleanup_back h4).2 r c hb) with h5 | h5
    · exact Or.inl (pass1_eb_frame h1 r c h5)
    · exact Or.inr (pass1_eb_frame h1 (r + 1) c h5)

/-- Witness for C8 at a concrete successful tick (the fresh game state). -/
theorem c8_witness :
    (∀ r c, gget initState.grid r c = some BULLET →
      gget initState.grid r c = some BULLET ∨
        (1 ≤ r ∧ gget initState.grid (r - 1) c = some BULLET)) ∧
    (∀ r c, gget initState.grid r c = some ENEMY_BULLET →
      gget initState.grid r c = some ENEMY_BULLET ∨
        gget initState.grid (r + 1) c = some ENEMY_BULLET) :=
  c8_one_cell_per_tick initState initState (by decide)

/-- setupTargets does not touch the kill counter. -/
theorem stampStep_kills (tpl : Grid) (p : Nat × Nat) (s : St) :
    (stampStep tpl p s).kills = s.kills := by
  unfold stampStep
  dsimp only
  split <;> split <;> rfl

/-- setupTargets does not touch the wave counter. -/
theorem stampStep_wave (tpl : Grid) (p : Nat × Nat) (s : St) :
    (stampStep tpl p s).wave = s.wave := by
  unfold stampStep
  dsimp only
  split <;> split <;> rfl

theorem runT_stamp_kills (tpl : Grid) :
    ∀ (l : List (Nat × Nat)) (s : St), (runT (stampStep tpl) l s).kills = s.kills := by
  intro l
  induction l with
  | nil => intro s; rfl
  | cons p ps ih =>
    intro s
    exact (ih (stampStep tpl p s)).trans (stampStep_kills tpl p s)

theorem runT_stamp_wave (tpl : Grid) :
    ∀ (l : List (Nat × Nat)) (s : St), (runT (stampStep tpl) l s).wave = s.wave := by
  intro l
  induction l with
  | nil => intro s; rfl
  | cons p ps ih =>
    intro s
    exact (ih (stampStep tpl p s)).trans (stampStep_wave tpl p s)

/-- Claim C4 amended: at a wave transition below the wave cap the
weighted-kill counter is NOT reset for the new wave: it is carried over
unchanged (the counter is reset only by the gameover/init path), and the
wave-clear comparison kills >= enemies is between the cumulative counters. -/
theorem c4_amended (s : St) (idx : Nat) (h : s.wave + 1 ≤ 99) :
    (waveTransition idx s).kills = s.kills := by
  have hw : (stampWave idx s).wave = s.wave := runT_stamp_wave _ scanTpl s
  have hk : (stampWave idx s).kills = s.kills := runT_stamp_kills _ scanTpl s
  unfold waveTransition
  dsimp only
  have hcond : ¬ 99 < (stampWave idx s).wave + 1 := by
    rw [hw]
    omega
  rw [if_neg hcond]
  exact hk

/-- Witness for the amended C4 at the concrete transition state. -/
theorem c4_amended_witness : (waveTransition 0 c4start).kills = c4start.kills :=
  c4_amended c4start 0 (by decide)

/-- gameover re-initialises into a state satisfying the cursor invariant. -/
theorem stInv_gameover (s : St) : StInv (gameover s) := by
  constructor
  · show (4 : Nat) ≤ 7
    decide
  · intro r c hh
    exact absurd (gget_emptyGrid hh) (by decide)

/-- A write of a non-CURSOR value keeps the grid CURSOR-free. -/
theorem noCursor_gset {g g1 : Grid} {r c v : Nat} (h : gset g r c v = some g1)
    (hv : v ≠ CURSOR) (hg : ∀ r1 c1, gget g r1 c1 ≠ some CURSOR) :
    ∀ r1 c1, gget g1 r1 c1 ≠ some CURSOR := by
  intro r1 c1 hh
  rcases gget_gset_cases h r1 c1 CURSOR hh with h1 | h2
  · exact hv h1.symm
  · exact hg r1 c1 h2

/-- A pair write of non-CURSOR values keeps the grid CURSOR-free. -/
theorem noCursor_setPair {g g1 : Grid} {r1 c1 v1 r2 c2 v2 : Nat}
    (h : setPair g r1 c1 v1 r2 c2 v2 = some g1) (hv1 : v1 ≠ CURSOR)
    (hv2 : v2 ≠ CURSOR) (hg : ∀ r c, gget g r c ≠ some CURSOR) :
    ∀ r c, gget g1 r c ≠ some CURSOR := by
  intro r c hh
  rcases setPair_cases h r c CURSOR hh with h1 | h2 | h3
  · exact hv1 h1.symm
  · exact hv2 h2.symm
  · exact hg r c h3

theorem step1_inv {p : Nat × Nat} {s s1 : St} (h : step1 p s = some s1)
    (hI : StInv s) : StInv s1 := by
  unfold step1 at h
  split at h
  · cases h
  next v hv =>
    split at h
    case isFalse => cases h; exact hI
    next hvB =>
      split at h
      case isFalse =>
        split at h
        · cases h
        next g hg =>
          cases h
          exact ⟨hI.1, noCursor_gset hg (by decide) hI.2⟩
      case isTrue =>
        split at h
        · cases h
        next above habove =>
          split at h
          · split at h
            · cases h
            next g hg =>
              cases h
              exact ⟨hI.1, noCursor_setPair hg (by decide) (by decide) hI.2⟩
          split at h
          · split at h
            · cases h
            next g hg =>
              cases h
              exact ⟨hI.1, noCursor_setPair hg (by decide) (by decide) hI.2⟩
          split at h
          · split at h
            · cases h
            next g hg =>
              cases h
              exact ⟨hI.1, noCursor_setPair hg (by decide) (by decide) hI.2⟩
          split at h
          · split at h
            · cases h
            next g hg =>
              cases h
              exact ⟨hI.1, noCursor_setPair hg (by decide) (by decide) hI.2⟩
          split at h
          · split at h
            · cases h
            next g hg =>
              cases h
              exact ⟨hI.1, noCursor_setPair hg (by decide) (by decide) hI.2⟩
          split at h
          · split at h
            · cases h
            next g hg =>
              cases h
              exact ⟨hI.1, noCursor_setPair hg (by decide) (by decide) hI.2⟩
          · cases h
            exact hI

theorem step2_inv {p : Nat × Nat} {s s1 : St} (h : step2 p s = some s1)
    (hI : StInv s) : StInv s1 := by
  unfold step2 at h
  split at h
  · cases h
  next v hv =>
    split at h
    case isFalse => cases h; exact hI
    next hvEB =>
      split at h
      · cases h
      next r0 hp1 =>
        split at h
        · cases h
        next below hbelow =>
          split at h
          · split at h
            · cases h
            next g hg =>
              cases h
              exact ⟨hI.1, noCursor_setPair hg (by decide) (by decide) hI.2⟩
          split at h
          · cases h
            exact stInv_gameover s
          · split at h
            · cases h
            next g hg =>
              cases h
              exact ⟨hI.1, noCursor_gset hg (by decide) hI.2⟩

theorem stepClean_inv {p : Nat × Nat} {s s1 : St} (h : stepClean p s = some s1)
    (hI : StInv s) : StInv s1 := by
  unfold stepClean at h
  split at h
  · cases h
  next v hv =>
    split at h
    case isFalse => cases h; exact hI
    next hvEB =>
      split at h
      · cases h
      next g hg =>
        cases h
        exact ⟨hI.1, noCursor_gset hg (by decide) hI.2⟩

theorem advanceTick_inv {s s1 : St} (h : advanceTick s = some s1)
    (hI : StInv s) : StInv s1 := by
  unfold advanceTick at h
  rcases Option.bind_eq_some.mp h with ⟨t1, h1, h2⟩
  rcases Option.bind_eq_some.mp h2 with ⟨t2, h3, h4⟩
  have i1 := runSteps_fwd step1 StInv (fun _ _ _ hs hP => step1_inv hs hP) scan1 s t1 h1 hI
  have i2 := runSteps_fwd step2 StInv (fun _ _ _ hs hP => step2_inv hs hP) scan2 t1 t2 h3 i1
  exact runSteps_fwd stepClean StInv (fun _ _ _ hs hP => stepClean_inv hs hP) scanClean t2 s1 h4 i2

theorem fireStep_inv (draws : Nat → Nat) (p : Nat × Nat) (s : St) (hI : StInv s) :
    StInv (fireStep draws p s) := by
  unfold fireStep
  cases hslot : gget s.grid p.1 p.2 with
  | none => simp only [hslot]; exact hI
  | some slot =>
    simp only [hslot]
    by_cases hc : 50 ≤ draws (p.1 * 8 + p.2) % 100
        ∧ (slot = ENEMY_B ∨ slot = ENEMY_C ∨ slot = ENEMY_D)
        ∧ hasEnemyBelow s.grid p.1 p.2 = false
        ∧ 0 < p.1 ∧ gget s.grid (p.1 - 1) p.2 = some EMPTY
    · rw [if_pos hc]
      cases hg : gset s.grid (p.1 - 1) p.2 ENEMY_BULLET with
      | none => simp only [hg]; exact hI
      | some g => simp only [hg]; exact ⟨hI.1, noCursor_gset hg (by decide) hI.2⟩
    · rw [if_neg hc]
      exact hI

theorem enemyShoot_inv (draws : Nat → Nat) (s : St) (hI : StInv s) :
    StInv (enemyShoot draws s) :=
  runT_fwd_mem (fireStep draws) StInv scan2
    (fun p _ t hT => fireStep_inv draws p t hT) s hI

/-- Every cell of every catalog template (and of the out-of-range default) is
a value other than the CURSOR marker. -/
theorem catalog_tpl_ne_cursor (idx : Nat) :
    ∀ p ∈ scanTpl,
      tplAt (catalog.getD idx (List.replicate 3 (List.replicate 8 EMPTY))) p.1 p.2
        ≠ CURSOR := by
  by_cases hidx : idx < 10
  · interval_cases idx <;> decide
  · have hlen : catalog.length ≤ idx := by
      have h10 : catalog.length = 10 := rfl
      omega
    have hdef : catalog.getD idx (List.replicate 3 (List.replicate 8 EMPTY))
        = List.replicate 3 (List.replicate 8 EMPTY) := by
      rw [List.getD_eq_getElem?_getD, List.getElem?_eq_none hlen]
      rfl
    rw [hdef]
    decide

theorem stInv_mk (t : St) (b d : Int) (h : StInv t) :
    StInv { t with base := b, delay := d } :=
  ⟨h.1, h.2⟩

theorem stInv_wave (t : St) (w : Nat) (h : StInv t) : StInv { t with wave := w } :=
  ⟨h.1, h.2⟩

theorem stampStep_inv (tpl : Grid) (p : Nat × Nat) (s : St)
    (hv : tplAt tpl p.1 p.2 ≠ CURSOR) (hI : StInv s) : StInv (stampStep tpl p s) := by
  unfold stampStep
  have hs1 : ∀ (t : St), StInv t →
      StInv (match gset t.grid (7 - p.1) p.2 (tplAt tpl p.1 p.2) with
             | none => t
             | some g => { t with grid := g }) := by
    intro t hT
    split
    · exact hT
    next g hg => exact ⟨hT.1, noCursor_gset hg hv hT.2⟩
  dsimp only
  refine hs1 _ ?_
  split
  · exact ⟨hI.1, hI.2⟩
  · exact hI

theorem waveTransition_inv (idx : Nat) (s : St) (hI : StInv s) :
    StInv (waveTransition idx s) := by
  have hstamp : StInv (stampWave idx s) :=
    runT_fwd_mem (stampStep _) StInv scanTpl
      (fun p hp t hT => stampStep_inv _ p t (catalog_tpl_ne_cursor idx p hp) hT) s hI
  unfold waveTransition
  dsimp only
  apply stInv_mk
  split
  · exact stInv_gameover _
  · exact stInv_wave _ _ hstamp

theorem cursorMove_inv (x : Nat) (s : St) (hI : StInv s) : StInv (cursorMove x s) := by
  unfold cursorMove
  split
  next hcond =>
    refine ⟨?_, hI.2⟩
    show s.cursorX + 1 ≤ 7
    omega
  split
  next hcond =>
    refine ⟨?_, hI.2⟩
    show s.cursorX - 1 ≤ 7
    have := hI.1
    omega
  · exact hI

theorem shootStep_inv (s : St) (hI : StInv s) : StInv (shootStep s) := by
  unfold shootStep
  split
  · split
    · exact hI
    next g hg => exact ⟨hI.1, noCursor_gset hg (by decide) hI.2⟩
  · exact hI

theorem gstep_inv {s s1 : St} (h : GStep s s1) (hI : StInv s) : StInv s1 := by
  cases h with
  | advance _ ha => exact advanceTick_inv ha hI
  | fire draws => exact enemyShoot_inv draws s hI
  | waveClear idx hidx hk => exact waveTransition_inv idx s hI
  | move x => exact cursorMove_inv x s hI
  | shoot => exact shootStep_inv s hI

/-- Claim C10: confirmed.  In the initial state and after every loop action
(hence after every loop iteration, which is a composition of such actions)
the cursor column is within the 8-wide board, and the CURSOR marker never
occupies a grid cell: the cursor's row-0 cell remains an ordinary grid
value. -/
theorem c10_cursor_invariant (s : St) (h : Reachable s) :
    s.cursorX ≤ 7 ∧ ∀ r c, gget s.grid r c ≠ some CURSOR := by
  have hInv : StInv s := by
    induction h with
    | refl =>
      exact ⟨by decide, fun r c hh => absurd (gget_emptyGrid hh) (by decide)⟩
    | tail hab hstep ih => exact gstep_inv hstep ih
  exact hInv

/-- Witness for C10 at the reachable initial state. -/
theorem c10_witness :
    initState.cursorX ≤ 7 ∧ ∀ r c, gget initState.grid r c ≠ some CURSOR :=
  c10_cursor_invariant initState Relation.ReflTransGen.refl

/-- The delaySeq recurrence indeed models the base and interval produced by
the wave-transition block: checked over the transitions of a session through
wave 40 (past the 16-bit wrap at wave 37). -/
theorem delaySeq_matches_transitions :
    ∀ n, n ≤ 40 → (iterTrans n).base = baseSeq n ∧ (iterTrans n).delay = delaySeq n := by
  decide

end SpaceShooter
